import Mathlib

/-!
Shallow embedding of the `todoist_inbox_organizer` repository.

Two source variants are embedded:
  * `Main` — `src/todoist_inbox_organizer.py`
  * `ContextLabeler` — `src/context_labeler.py`

External mutations (Todoist REST/sync calls) are recorded as explicit
`Effect` values; reads of external state go through an `Env` record whose
fields correspond to the remote lookups the code performs (`get_task`,
`get_section`, `get_sections`).  Success of an outbound POST is an oracle
`postOk` on the issued command, mirroring the status-code checks in the
source.  Machine time (`time.time()`) is an `Int` number of seconds.
-/

namespace Str

/-- Whether the second character list is an initial segment of the first. -/
def startsWithList : List Char → List Char → Bool
  | _, [] => true
  | [], _ :: _ => false
  | c :: cs, d :: ds => c == d && startsWithList cs ds

/-- Python `str.startswith`. -/
def startsWith (s pat : String) : Bool :=
  startsWithList s.data pat.data

/-- Accumulator pass for `split`: gather maximal runs of non-whitespace
characters. -/
def splitWSAux : List Char → List Char → List String
  | [], acc => if acc.isEmpty then [] else [String.mk acc.reverse]
  | c :: rest, acc =>
      if c.isWhitespace then
        if acc.isEmpty then splitWSAux rest []
        else String.mk acc.reverse :: splitWSAux rest []
      else splitWSAux rest (c :: acc)

/-- Python `str.split()` with no argument: split on whitespace runs,
discarding empty pieces. -/
def splitWS (s : String) : List String :=
  splitWSAux s.data []

/-- Python `int(s)` on the all-digit tokens produced by the relative-due
format (other inputs raise `ValueError`, here `none`). -/
def parseNat (s : String) : Option Nat :=
  let cs := s.data
  if !cs.isEmpty && cs.all Char.isDigit then
    some (cs.foldl (fun a c => 10 * a + (c.toNat - 48)) 0)
  else none

/-- Python `str.lower()`. -/
def toLower (s : String) : String :=
  String.mk (s.data.map Char.toLower)

end Str

namespace Main

/-- The value `INBOX_PROJECT_ID` from `todoist_inbox_organizer.py`. -/
def INBOX_PROJECT_ID : String := "2236493795"

/-- The dict `SECTION_TO_LABEL_MAPPING`, as an association list preserving
the Python dict's insertion order. -/
def SECTION_TO_LABEL_MAPPING : List (String × String) :=
  [("Work", "context/work"),
   ("Home", "context/home"),
   ("Side", "context/side"),
   ("Move to Immediate", "move/immediate"),
   ("Move to Parallel", "move/parallel"),
   ("Move to project Inbox", "move/inbox")]

/-- The dict `LABEL_TO_PROJECT_MAPPING`, in insertion order. -/
def LABEL_TO_PROJECT_MAPPING : List (String × String) :=
  [("context/work", "2327425429"),
   ("context/home", "2244866374"),
   ("context/side", "2327425662")]

/-- A value of the dict `DUE_TIME_SECTIONS`. -/
structure DueTemplate where
  dueString : String
  dueLang : String
deriving DecidableEq

/-- The dict `DUE_TIME_SECTIONS` of the main variant. -/
def DUE_TIME_SECTIONS : List (String × DueTemplate) :=
  [("Due 9am", ⟨"at 9am", "en"⟩),
   ("Due 12pm", ⟨"at 12pm", "en"⟩),
   ("Due 5pm", ⟨"at 5pm", "en"⟩)]

/-- The constant `DEDUPLICATION_WINDOW = 30` (seconds). -/
def DEDUPLICATION_WINDOW : Int := 30

/-- A task's `due` attribute as read back from the API: the fields the code
inspects (`task.due.date`, `task.due.string`). -/
structure DueInfo where
  date : String
  string : String
deriving DecidableEq

/-- The remote state of a task that the code reads (`task.labels`,
`task.due`). -/
structure TaskState where
  labels : List String
  due : Option DueInfo
deriving DecidableEq

/-- The target of an `item_move` sync command: the code sends either a
`project_id` or a `section_id` argument. -/
inductive MoveArg
  | toProject (projectId : String)
  | toSection (sectionId : String)
deriving DecidableEq

/-- An outbound mutation issued to the Todoist API. -/
inductive Effect
  | updateLabels (taskId : String) (labels : List String)
  | setDue (taskId dueString dueLang : String) (addDuration : Bool)
  | removeDue (taskId : String)
  | itemMove (taskId : String) (target : MoveArg)
  | addSection (name projectId : String)
deriving DecidableEq

/-- Read-only view of the external world: `get_section` by id,
`get_task` by id, `get_sections` of a project as `(id, name)` pairs in API
order, the id the API assigns to a newly created section, whether an
issued POST returns HTTP 200, and today's date string
(`datetime.now().strftime("%Y-%m-%d")`). -/
structure Env where
  sectionName : String → Option String
  task : String → TaskState
  sections : String → List (String × String)
  freshSectionId : String → String
  postOk : Effect → Bool
  today : String

/-- Function `add_label_to_task` (lines 151-172): fetch the task, no-op if
the label is present, otherwise write `task.labels + [label]`.  Returns the
issued effects and the function's boolean result. -/
def add_label_to_task (env : Env) (taskId label : String) :
    List Effect × Bool :=
  let task := env.task taskId
  if task.labels.contains label then
    ([], true)
  else
    ([Effect.updateLabels taskId (task.labels ++ [label])], true)

/-- Function `get_or_create_inbox_section` (lines 132-148): first section of
the project whose name starts with `"Inbox *"`, else create one. -/
def get_or_create_inbox_section (env : Env) (projectId : String) :
    List Effect × Option String :=
  match (env.sections projectId).find? (fun s => Str.startsWith s.2 "Inbox *") with
  | some s => ([], some s.1)
  | none =>
      ([Effect.addSection "Inbox *" projectId],
       some (env.freshSectionId projectId))

/-- Function `move_task_to_project_inbox` (lines 174-209). -/
def move_task_to_project_inbox (env : Env) (taskId projectId : String) :
    List Effect × Bool :=
  let r := get_or_create_inbox_section env projectId
  match r.2 with
  | none => (r.1, false)
  | some sid =>
      let cmd := Effect.itemMove taskId (MoveArg.toSection sid)
      (r.1 ++ [cmd], env.postOk cmd)

/-- Function `get_section_id` (lines 245-258): first section of the project
whose name starts with the given string. -/
def get_section_id (env : Env) (projectId pfx : String) : Option String :=
  ((env.sections projectId).find? (fun s => Str.startsWith s.2 pfx)).map (·.1)

/-- Function `move_task_to_project_and_section` (lines 260-312): POST a move
to the project; on success, if a section matching the name is found, POST a
second move into it. -/
def move_task_to_project_and_section (env : Env)
    (taskId projectId pfx : String) : List Effect × Bool :=
  let cmd1 := Effect.itemMove taskId (MoveArg.toProject projectId)
  if env.postOk cmd1 then
    match get_section_id env projectId pfx with
    | some sid =>
        let cmd2 := Effect.itemMove taskId (MoveArg.toSection sid)
        ([cmd1, cmd2], env.postOk cmd2)
    | none => ([cmd1], true)
  else
    ([cmd1], false)

/-- Outcome reported by `process_move_section`: moved via a label, fell off
the loop with no matching label, or hit the unknown-move-type early return. -/
inductive MoveOutcome
  | moved (label projectId : String)
  | noMatch
  | unknownType
deriving DecidableEq

/-- The dispatch on `move_type` inside `process_move_section`
(lines 322-330); `none` models the unknown-move-type early `return`. -/
def moveForType (env : Env) (taskId moveType targetProjectId : String) :
    Option (List Effect × Bool) :=
  if moveType == "move/immediate" then
    some (move_task_to_project_and_section env taskId targetProjectId
      "Immediate--")
  else if moveType == "move/parallel" then
    some (move_task_to_project_and_section env taskId targetProjectId
      "Parallel=-")
  else if moveType == "move/inbox" then
    some (move_task_to_project_inbox env taskId targetProjectId)
  else
    none

/-- The `for label in task.labels` loop of `process_move_section`
(lines 319-336): skip labels not in `LABEL_TO_PROJECT_MAPPING`; on the first
mapped label attempt the move and stop if it succeeds, otherwise keep
scanning the remaining labels. -/
def moveLoop (env : Env) (taskId moveType : String) :
    List String → List Effect × MoveOutcome
  | [] => ([], MoveOutcome.noMatch)
  | l :: rest =>
      match LABEL_TO_PROJECT_MAPPING.lookup l with
      | none => moveLoop env taskId moveType rest
      | some pid =>
          match moveForType env taskId moveType pid with
          | none => ([], MoveOutcome.unknownType)
          | some (effs, ok) =>
              if ok then (effs, MoveOutcome.moved l pid)
              else
                let r := moveLoop env taskId moveType rest
                (effs ++ r.1, r.2)

/-- Function `process_move_section` (lines 314-343). -/
def process_move_section (env : Env) (taskId moveType : String) :
    List Effect × MoveOutcome :=
  moveLoop env taskId moveType (env.task taskId).labels

/-- Outcome reported by `process_task`, one per branch of its if/elif
chain. -/
inductive TaskOutcome
  | movedSection (out : MoveOutcome)
  | addedLabel (label : String)
  | alreadyLabeled (label : String)
  | setToday
  | setDueTime (dueString : String)
  | removedDue
  | skipped
deriving DecidableEq

/-- The last two branches of `process_task`'s chain (lines 368-375): remove
the due date when the section is an `"Inbox *"` section and the task has
one, else skip. -/
def inboxOrSkip (sname : Option String) (task : TaskState)
    (taskId : String) : List Effect × TaskOutcome :=
  match sname with
  | some n =>
      if Str.startsWith n "Inbox *" && task.due.isSome then
        ([Effect.removeDue taskId], TaskOutcome.removedDue)
      else
        ([], TaskOutcome.skipped)
  | none => ([], TaskOutcome.skipped)

/-- Function `process_task` (lines 346-381): the if/elif dispatch over the
section name. -/
def process_task (env : Env) (taskId sectionId : String) :
    List Effect × TaskOutcome :=
  let sname := env.sectionName sectionId
  let task := env.task taskId
  match sname.bind (fun n => SECTION_TO_LABEL_MAPPING.lookup n) with
  | some label =>
      if Str.startsWith label "move/" then
        let r := process_move_section env taskId label
        (r.1, TaskOutcome.movedSection r.2)
      else if task.labels.contains label then
        ([], TaskOutcome.alreadyLabeled label)
      else
        ((add_label_to_task env taskId label).1, TaskOutcome.addedLabel label)
  | none =>
      if sname == some "Due Today"
          && task.due.all (fun d => d.date != env.today) then
        ([Effect.setDue taskId "today" "en" false], TaskOutcome.setToday)
      else
        match sname.bind (fun n => DUE_TIME_SECTIONS.lookup n) with
        | some tmpl =>
            if task.due.all (fun d => d.string != tmpl.dueString) then
              ([Effect.setDue taskId tmpl.dueString tmpl.dueLang true],
               TaskOutcome.setDueTime tmpl.dueString)
            else
              inboxOrSkip sname task taskId
        | none => inboxOrSkip sname task taskId

/-- An entry of the `processed_tasks` defaultdict: last-processed timestamp
and occurrence count.  The defaultdict's factory produces
`{'timestamp': 0, 'count': 0}`. -/
structure DedupEntry where
  timestamp : Int
  count : Nat
deriving DecidableEq

/-- The defaultdict's default value. -/
def initialEntry : DedupEntry := ⟨0, 0⟩

/-- The deduplication block of `todoist_webhook` (lines 391-401), acting on
the task's entry at arrival time `now`: inside the window the count is
bumped (timestamp untouched) and the event is skipped once the count
exceeds 1; outside it the entry is reset to `(now, 1)` and the event is
processed.  Returns the updated entry and whether processing continues. -/
def dedupStep (entry : DedupEntry) (now : Int) : DedupEntry × Bool :=
  if now - entry.timestamp < DEDUPLICATION_WINDOW then
    let e : DedupEntry := ⟨entry.timestamp, entry.count + 1⟩
    if e.count > 1 then (e, false) else (e, true)
  else
    (⟨now, 1⟩, true)

/-- Result of `check_rate_limit` (lines 83-90): either the call may
proceed, or the function raised `HTTPException(429)`. -/
inductive RateCheck
  | proceed
  | raise429
deriving DecidableEq

/-- Function `check_rate_limit`, returning the outcome together with the
updated `(rate_limited, rate_limit_reset_time)` globals. -/
def check_rate_limit (rl : Bool) (reset now : Int) :
    RateCheck × Bool × Int :=
  if rl then
    if now < reset then (RateCheck.raise429, rl, reset)
    else (RateCheck.proceed, false, 0)
  else
    (RateCheck.proceed, rl, reset)

/-- Function `handle_rate_limit` (lines 77-81): set the flag and the reset
timestamp. -/
def handle_rate_limit (resetTime : Int) : Bool × Int := (true, resetTime)

/-- Every API wrapper in the file starts with `await check_rate_limit()`
before doing anything else: when the guard raises, the wrapper issues no
effect at all.  `guardedOp` is that prelude applied to a wrapper whose body
would issue `effs`. -/
def guardedOp (rl : Bool) (reset now : Int) (effs : List Effect) :
    List Effect × Bool × Int :=
  match check_rate_limit rl reset now with
  | (RateCheck.raise429, b, r) => ([], b, r)
  | (RateCheck.proceed, b, r) => (effs, b, r)

/-- The process-wide mutable globals of the main variant:
`processed_tasks`, `rate_limited`, `rate_limit_reset_time`. -/
structure ServerState where
  processedTasks : String → DedupEntry
  rateLimited : Bool
  rateLimitResetTime : Int

/-- The parsed `Webhook` payload (pydantic models `Webhook` and `Task`,
lines 56-65; `section_id` is a required string, so an absent section
arrives as `""`). -/
structure WebhookEvent where
  eventName : String
  userId : String
  taskId : String
  projectId : String
  sectionId : String
  content : String

/-- An HTTP response from the endpoint: status code and body.  FastAPI
wraps a plain string returned from a route handler in an HTTP 200. -/
structure HttpResponse where
  status : Nat
  body : String
deriving DecidableEq

/-- The handler's `return "ok"`. -/
def okResponse : HttpResponse := ⟨200, "ok"⟩

/-- The handler's `return "rate limited"` (the `HTTPException(429)` raised
by `check_rate_limit` is caught at lines 409-413 and converted to this
plain return value, which FastAPI serves with status 200). -/
def rateLimitedResponse : HttpResponse := ⟨200, "rate limited"⟩

/-- What one webhook call produces: the new globals, the HTTP response, and
whether `background_tasks.add_task(process_task, ...)` was called. -/
structure WebhookResult where
  state : ServerState
  response : HttpResponse
  scheduled : Bool

/-- Pointwise update of the `processed_tasks` map. -/
def updateEntry (f : String → DedupEntry) (id : String) (e : DedupEntry) :
    String → DedupEntry :=
  fun x => if x = id then e else f x

/-- Function `todoist_webhook` (lines 383-415): filter the event name,
run the dedup block, and if a section id is present schedule background
processing guarded by `check_rate_limit`. -/
def todoist_webhook (st : ServerState) (now : Int) (ev : WebhookEvent) :
    WebhookResult :=
  if ev.eventName == "item:added" || ev.eventName == "item:updated" then
    let r := dedupStep (st.processedTasks ev.taskId) now
    let st1 : ServerState :=
      { st with processedTasks := updateEntry st.processedTasks ev.taskId r.1 }
    if !r.2 then ⟨st1, okResponse, false⟩
    else if ev.sectionId != "" then
      match check_rate_limit st1.rateLimited st1.rateLimitResetTime now with
      | (RateCheck.raise429, b, rst) =>
          ⟨{ st1 with rateLimited := b, rateLimitResetTime := rst },
           rateLimitedResponse, false⟩
      | (RateCheck.proceed, b, rst) =>
          ⟨{ st1 with rateLimited := b, rateLimitResetTime := rst },
           okResponse, true⟩
    else ⟨st1, okResponse, false⟩
  else ⟨st, okResponse, false⟩

end Main

namespace Cal

/-!
Wall-clock datetime arithmetic, modelling Python `datetime` +
`timedelta` / `dateutil.relativedelta` on timezone-aware values.  Python's
`aware_dt + timedelta(...)` advances the wall-clock fields through the
proleptic Gregorian calendar while keeping the attached (pytz-frozen) UTC
offset; `aware_dt.astimezone(pytz.UTC)` then shifts by that fixed offset.
Instants are represented as a `Nat` count of seconds since 0000-03-01
00:00:00 (all dates in `datetime`'s supported range are nonnegative). -/

/-- One wall-clock datetime. -/
structure DateTime where
  year : Nat
  month : Nat
  day : Nat
  hour : Nat
  minute : Nat
  second : Nat
deriving DecidableEq

/-- Gregorian leap-year test. -/
def isLeap (y : Nat) : Bool :=
  y % 4 == 0 && (y % 100 != 0 || y % 400 == 0)

/-- Number of days in a month of a year. -/
def daysInMonth (y m : Nat) : Nat :=
  if m == 2 then (if isLeap y then 29 else 28)
  else if m == 4 || m == 6 || m == 9 || m == 11 then 30
  else 31

/-- Days from 0000-03-01 to year/month/day (civil calendar, March-based
year so the leap day is the last day of the shifted year). -/
def daysFromCivil (y m d : Nat) : Nat :=
  let ys := if m ≤ 2 then y - 1 else y
  let ms := if m ≤ 2 then m + 9 else m - 3
  365 * ys + ys / 4 - ys / 100 + ys / 400 + (153 * ms + 2) / 5 + (d - 1)

/-- Inverse of `daysFromCivil`: year/month/day of a day count. -/
def civilFromDays (g : Nat) : Nat × Nat × Nat :=
  let era := g / 146097
  let doe := g % 146097
  let yoe := (doe - doe / 1460 + doe / 36524 - doe / 146096) / 365
  let y0 := yoe + era * 400
  let doy := doe - (365 * yoe + yoe / 4 - yoe / 100)
  let mp := (5 * doy + 2) / 153
  let d := doy - (153 * mp + 2) / 5 + 1
  let m := if mp < 10 then mp + 3 else mp - 9
  (if m ≤ 2 then y0 + 1 else y0, m, d)

/-- Seconds since the 0000-03-01 epoch of a wall-clock datetime. -/
def toSeconds (t : DateTime) : Nat :=
  86400 * daysFromCivil t.year t.month t.day
    + 3600 * t.hour + 60 * t.minute + t.second

/-- Wall-clock datetime of a second count. -/
def ofSeconds (n : Nat) : DateTime :=
  let c := civilFromDays (n / 86400)
  let s := n % 86400
  ⟨c.1, c.2.1, c.2.2, s / 3600, s % 3600 / 60, s % 60⟩

/-- Python `dt + timedelta(seconds=k)` on the wall clock. -/
def addSeconds (t : DateTime) (k : Nat) : DateTime :=
  ofSeconds (toSeconds t + k)

/-- Python `dt + relativedelta(months=n)`: calendar-month arithmetic with
year carry, clamping the day to the target month's length, time fields
unchanged. -/
def addMonths (t : DateTime) (n : Nat) : DateTime :=
  let tm := t.year * 12 + (t.month - 1) + n
  let y := tm / 12
  let m := tm % 12 + 1
  ⟨y, m, min t.day (daysInMonth y m), t.hour, t.minute, t.second⟩

/-- Conversion `aware_local.astimezone(pytz.UTC)` with a frozen UTC offset
of `westMinutes` minutes west of UTC (America/Chicago standard time is 360
minutes west): the UTC wall clock is the local wall clock plus the
offset. -/
def utcOfLocal (t : DateTime) (westMinutes : Nat) : DateTime :=
  addSeconds t (60 * westMinutes)

/-- Zero-padded two-digit rendering. -/
def pad2 (n : Nat) : String :=
  if n < 10 then "0" ++ toString n else toString n

/-- Zero-padded four-digit rendering. -/
def pad4 (n : Nat) : String :=
  if n < 10 then "000" ++ toString n
  else if n < 100 then "00" ++ toString n
  else if n < 1000 then "0" ++ toString n
  else toString n

/-- Python `strftime("%Y-%m-%dT%H:%M:%S.000000Z")`. -/
def formatIso (t : DateTime) : String :=
  pad4 t.year ++ "-" ++ pad2 t.month ++ "-" ++ pad2 t.day ++ "T"
    ++ pad2 t.hour ++ ":" ++ pad2 t.minute ++ ":" ++ pad2 t.second
    ++ ".000000Z"

/-- Python `strftime("%Y-%m-%d")` followed by
`" at "` and `strftime("%I:%M %p")` (12-hour clock). -/
def formatHuman (t : DateTime) : String :=
  pad4 t.year ++ "-" ++ pad2 t.month ++ "-" ++ pad2 t.day ++ " at "
    ++ pad2 ((t.hour + 11) % 12 + 1) ++ ":" ++ pad2 t.minute ++ " "
    ++ (if t.hour < 12 then "AM" else "PM")

end Cal

namespace ContextLabeler

/-- The value `INBOX_PROJECT_ID` from `context_labeler.py`. -/
def INBOX_PROJECT_ID : String := "2236493795"

/-- The dict `SECTION_TO_LABEL_MAPPING` of `context_labeler.py`. -/
def SECTION_TO_LABEL_MAPPING : List (String × String) :=
  [("Work", "context/work"),
   ("Home", "context/home"),
   ("Side", "context/side")]

/-- The dict `LABEL_TO_PROJECT_MAPPING` of `context_labeler.py`. -/
def LABEL_TO_PROJECT_MAPPING : List (String × String) :=
  [("context/work", "2327425429"),
   ("context/home", "2244866374"),
   ("context/side", "2327425662")]

/-- A value of the `DUE_TIME_SECTIONS` dict: due string, language, and the
optional `add_duration` / `add_reminder` flags read with `.get(..., False)`. -/
structure DueTemplate where
  dueString : String
  dueLang : String
  addDuration : Bool
  addReminder : Bool
deriving DecidableEq

/-- The dict `DUE_TIME_SECTIONS` of `context_labeler.py` (lines 45-53);
none of its entries sets `add_duration`, and only `"In 1 hour"` sets
`add_reminder`. -/
def DUE_TIME_SECTIONS : List (String × DueTemplate) :=
  [("Due 9am", ⟨"today at 9am", "en", false, false⟩),
   ("Due 12pm", ⟨"today at 12pm", "en", false, false⟩),
   ("Due 5pm", ⟨"today at 5pm", "en", false, false⟩),
   ("Tomorrow", ⟨"tomorrow", "en", false, false⟩),
   ("This Weekend", ⟨"saturday", "en", false, false⟩),
   ("Next Week", ⟨"on monday", "en", false, false⟩),
   ("In 1 hour", ⟨"+1 hour", "en", false, true⟩)]

/-- The synctodoist `Due` model as constructed by `set_due_date`
(lines 136-146): a present field holds `some`. -/
structure Due where
  date : Option String
  timezone : Option String
  string : Option String
  lang : Option String
deriving DecidableEq

/-- A synctodoist `Task` as read and written by this file: the fields the
code touches. -/
structure Task where
  id : String
  projectId : String
  sectionId : Option String
  content : String
  labels : List String
  due : Option Due
  duration : Option (String × Nat)
deriving DecidableEq

/-- Python truthiness of an optional string (`None` and `""` are falsy). -/
def truthy : Option String → Bool
  | none => false
  | some s => s != ""

/-- A committed mutation issued through the synctodoist API. -/
inductive Effect
  | updateTask (taskId : String) (t : Task)
  | moveTaskToProject (taskId projectId : String)
  | moveTaskToSection (taskId sectionId : String)
  | addReminder (itemId : String)
  | addSection (name projectId : String)
deriving DecidableEq

/-- Read-only view of the external world for the context_labeler variant:
`get_task`, `get_section`, whether `get_project` finds the project, the
current local wall-clock time `datetime.now(USER_TIMEZONE)`, and the pytz
offset (in minutes west of UTC) frozen into that value. -/
structure Env where
  task : String → Task
  sectionName : String → Option String
  projectExists : String → Bool
  now : Cal.DateTime
  westMinutes : Nat

/-- Function `add_label_to_task` (lines 96-107): always appends the label
(`task.labels + [label] if task.labels else [label]`) and commits an
update — there is no membership check in this variant. -/
def add_label_to_task (env : Env) (taskId label : String) :
    List Effect × Bool :=
  let task := env.task taskId
  let labels := task.labels ++ [label]
  let t' : Task := { task with labels := labels }
  ([Effect.updateTask task.id t'], true)

/-- Function `set_reminder` (lines 71-90): only valid when the task has a
due date. -/
def set_reminder (env : Env) (taskId : String) : List Effect × Bool :=
  let task := env.task taskId
  if task.due.isSome then ([Effect.addReminder taskId], true)
  else ([], false)

/-- The relative-time parse inside `set_due_date` (lines 115-120):
`due_string[1:].split()` must be exactly `[amount, unit]` with a numeric
amount; the unit is lowercased. -/
def parseRelative (s : String) : Option (Nat × String) :=
  match Str.splitWS (s.drop 1) with
  | [a, u] => (Str.parseNat a).map (fun n => (n, Str.toLower u))
  | _ => none

/-- The unit dispatch of `set_due_date` (lines 122-131): timedelta
wall-clock addition for hours/days/weeks, `relativedelta` calendar
arithmetic for months, `ValueError` (`none`) otherwise. -/
def computeDue (now : Cal.DateTime) (n : Nat) (unit : String) :
    Option Cal.DateTime :=
  if unit == "hour" || unit == "hours" then
    some (Cal.addSeconds now (3600 * n))
  else if unit == "day" || unit == "days" then
    some (Cal.addSeconds now (86400 * n))
  else if unit == "week" || unit == "weeks" then
    some (Cal.addSeconds now (604800 * n))
  else if unit == "month" || unit == "months" then
    some (Cal.addMonths now n)
  else
    none

/-- Function `set_due_date` (lines 109-160).  For a `"+N unit"` string the
due instant is computed on the local wall clock and converted to UTC only
for the stored `date` field; otherwise the string is passed through for
the API to parse.  Errors (bad format, bad unit) are caught and reported
as `false` with no commit. -/
def set_due_date (env : Env) (taskId dueString : String)
    (dueLang : String) (addDuration : Bool) : List Effect × Bool :=
  let task := env.task taskId
  let due? : Option Due :=
    if Str.startsWith dueString "+" then
      match parseRelative dueString with
      | none => none
      | some (n, unit) =>
          match computeDue env.now n unit with
          | none => none
          | some dueLocal =>
              some ⟨some (Cal.formatIso (Cal.utcOfLocal dueLocal env.westMinutes)),
                    some "America/Chicago",
                    some (Cal.formatHuman dueLocal),
                    some dueLang⟩
    else
      some ⟨none, some "America/Chicago", some dueString, some dueLang⟩
  match due? with
  | none => ([], false)
  | some d =>
      let t1 : Task := { task with due := some d }
      let t2 : Task :=
        if addDuration then { t1 with duration := some ("minute", 60) } else t1
      ([Effect.updateTask task.id t2], true)

/-- Function `remove_due_date` (lines 162-172). -/
def remove_due_date (env : Env) (taskId : String) : List Effect × Bool :=
  let task := env.task taskId
  ([Effect.updateTask task.id { task with due := none }], true)

/-- Function `move_task_to_project` (lines 174-186): `get_project` raises
on a missing project, caught as a `false` result with no commit. -/
def move_task_to_project (env : Env) (taskId projectId : String) :
    List Effect × Bool :=
  if env.projectExists projectId then
    ([Effect.moveTaskToProject taskId projectId], true)
  else
    ([], false)

/-- Function `process_context_label` (lines 215-226): when the section maps
to a context label that is itself mapped to a project, move the task there
and (on success) add the label, reporting `true`; otherwise report
`false`. -/
def process_context_label (env : Env) (task : Task) : List Effect × Bool :=
  let sname :=
    if truthy task.sectionId then env.sectionName (task.sectionId.getD "")
    else none
  match sname.bind (fun n => SECTION_TO_LABEL_MAPPING.lookup n) with
  | some label =>
      match LABEL_TO_PROJECT_MAPPING.lookup label with
      | some pid =>
          let r := move_task_to_project env task.id pid
          if r.2 then
            (r.1 ++ (add_label_to_task env task.id label).1, true)
          else
            (r.1, true)
      | none => ([], false)
  | none => ([], false)

/-- Function `process_task` (lines 188-213): bail out unless the task is in
the Inbox project with a (truthy) section; try the context-label rule
first; otherwise apply the due-date section rules. -/
def process_task (env : Env) (task : Task) : List Effect :=
  if task.projectId != INBOX_PROJECT_ID || !truthy task.sectionId then
    []
  else
    let r := process_context_label env task
    if r.2 then r.1
    else
      r.1 ++
        (if truthy task.sectionId then
          let sname := env.sectionName (task.sectionId.getD "")
          match sname.bind (fun n => DUE_TIME_SECTIONS.lookup n) with
          | some tmpl =>
              (set_due_date env task.id tmpl.dueString tmpl.dueLang
                tmpl.addDuration).1
                ++ (if tmpl.addReminder then (set_reminder env task.id).1
                    else [])
          | none =>
              if sname == some "Due Today" then
                (set_due_date env task.id "today" "en" false).1
              else []
        else [])

/-- The dedup check of this variant's `todoist_webhook` (lines 276-286):
`processed_tasks` maps a task id to the `datetime.now()` at which it was
last scheduled (absent on first sight); an event within 5 seconds of the
recorded time is skipped with the map untouched, otherwise processing is
scheduled and the entry is set to the current time.  Returns the updated
entry and whether processing was scheduled. -/
def dedupStep (entry : Option Int) (now : Int) : Option Int × Bool :=
  match entry with
  | some last =>
      if now - last < 5 then (some last, false) else (some now, true)
  | none => (some now, true)

end ContextLabeler

/-! ### Concrete environments and auxiliary definitions used by the theorems -/

/-- Environment for exercising C2: task `"t2"` already carries
`"context/work"` in both variants. -/
def c2MainEnv : Main.Env where
  sectionName := fun _ => none
  task := fun _ => ⟨["context/work"], none⟩
  sections := fun _ => []
  freshSectionId := fun _ => "fresh"
  postOk := fun _ => true
  today := "2024-01-01"

/-- The context_labeler-side environment for C2. -/
def c2CtxEnv : ContextLabeler.Env where
  task := fun tid => ⟨tid, "2236493795", some "s", "c", ["context/work"],
    none, none⟩
  sectionName := fun _ => some "Work"
  projectExists := fun _ => true
  now := ⟨2024, 1, 1, 12, 0, 0⟩
  westMinutes := 360

/-- Environment for the C5 example: the local clock reads
2024-01-01T23:30:00 in America/Chicago (CST, 360 minutes west of UTC). -/
def c5Env : ContextLabeler.Env where
  task := fun tid => ⟨tid, "2236493795", some "s", "c", [], none, none⟩
  sectionName := fun _ => some "In 1 hour"
  projectExists := fun _ => true
  now := ⟨2024, 1, 1, 23, 30, 0⟩
  westMinutes := 360

/-- The first label of a list that is a key of `LABEL_TO_PROJECT_MAPPING`,
together with its mapped project id. -/
def firstMappedLabel : List String → Option (String × String)
  | [] => none
  | l :: rest =>
      match Main.LABEL_TO_PROJECT_MAPPING.lookup l with
      | some pid => some (l, pid)
      | none => firstMappedLabel rest

/-- Environment for the C3 witness: a task labelled
`["context/work", "context/home"]` in a `move/inbox` section; the
work-mapped project has an existing `"Inbox *"` section `sWI`. -/
def c3Env : Main.Env where
  sectionName := fun _ => some "Move to project Inbox"
  task := fun _ => ⟨["context/work", "context/home"], none⟩
  sections := fun pid =>
    if pid = "2327425429" then [("sWI", "Inbox * work")] else []
  freshSectionId := fun pid => "fresh-" ++ pid
  postOk := fun _ => true
  today := "2024-01-01"

/-- Environment for the no-match half of the C3 witness: no label of the
task is in the mapping. -/
def c3EnvNoMatch : Main.Env where
  sectionName := fun _ => some "Move to project Inbox"
  task := fun _ => ⟨["someday", "errand"], none⟩
  sections := fun _ => []
  freshSectionId := fun pid => "fresh-" ++ pid
  postOk := fun _ => true
  today := "2024-01-01"

/-- Environment for the C7 witness: section `"s7"` is named
`"Random Section"`, which no rule matches; the task even has labels and a
due date, none of which may be touched. -/
def c7Env : Main.Env where
  sectionName := fun _ => some "Random Section"
  task := fun _ => ⟨["x"], some ⟨"2024-01-01", "today"⟩⟩
  sections := fun _ => []
  freshSectionId := fun p => p
  postOk := fun _ => true
  today := "2024-01-01"

/-- Fresh server state for the C9 witness. -/
def c9St : Main.ServerState where
  processedTasks := fun _ => ⟨0, 0⟩
  rateLimited := false
  rateLimitResetTime := 0

/-- First event of the C9 witness: accepted, but with an empty section. -/
def c9Ev1 : Main.WebhookEvent := ⟨"item:added", "u", "t9", "p", "", "c"⟩

/-- Second event of the C9 witness: same task, 10 s later, with a
section. -/
def c9Ev2 : Main.WebhookEvent := ⟨"item:updated", "u", "t9", "p", "s9", "c"⟩

/-- Server state for the C8 counterexample: guard armed until time 100. -/
def c8St : Main.ServerState where
  processedTasks := fun _ => ⟨0, 0⟩
  rateLimited := true
  rateLimitResetTime := 100

/-- Event for the C8 counterexample: accepted, fresh, with a section, at
time 50 (inside the rate-limit window). -/
def c8Ev : Main.WebhookEvent := ⟨"item:added", "u", "t8", "p", "s8", "c"⟩

/-- Environment for the C6 counterexample: task `"t6"` carries the label
`"later"` and a due date, and sits in a `"Work"`-named section. -/
def c6Env : Main.Env where
  sectionName := fun _ => some "Work"
  task := fun _ => ⟨["later"], some ⟨"2024-03-05", "mar 5"⟩⟩
  sections := fun _ => []
  freshSectionId := fun p => p
  postOk := fun _ => true
  today := "2024-01-01"

/-- Whether an effect is one of the deferral rule's remote mutations: an
`item_move` or a due-date clear. -/
def isMoveOrDueClear : Main.Effect → Bool
  | Main.Effect.itemMove _ _ => true
  | Main.Effect.removeDue _ => true
  | _ => false

/-! ### Claim theorems -/



/-- C1: the deduplication check is a sliding window anchored at the last
processed time.  In the main variant (window 30 s): the first event for a
task id (defaultdict entry `(0, 0)`, at any realistic `now` at least one
window past the epoch) is processed and recorded as `(now, 1)`; an event
strictly inside the window after a processed one only bumps the occurrence
count (timestamp untouched) and is suppressed; an event at or after the
window boundary is processed and resets the entry to `(now, 1)`.  The
context_labeler variant (window 5 s, timestamp only) slides the same way:
in-window events are suppressed without advancing the record, and first or
out-of-window events are processed and reset the record to their own
arrival time. -/
theorem dedup_sliding_window :
    (∀ now : Int, Main.DEDUPLICATION_WINDOW ≤ now →
      Main.dedupStep Main.initialEntry now = (⟨now, 1⟩, true)) ∧
    (∀ (e : Main.DedupEntry) (now : Int), 1 ≤ e.count →
      now - e.timestamp < Main.DEDUPLICATION_WINDOW →
      Main.dedupStep e now = (⟨e.timestamp, e.count + 1⟩, false)) ∧
    (∀ (e : Main.DedupEntry) (now : Int),
      Main.DEDUPLICATION_WINDOW ≤ now - e.timestamp →
      Main.dedupStep e now = (⟨now, 1⟩, true)) ∧
    (∀ last now : Int, now - last < 5 →
      ContextLabeler.dedupStep (some last) now = (some last, false)) ∧
    (∀ last now : Int, 5 ≤ now - last →
      ContextLabeler.dedupStep (some last) now = (some now, true)) ∧
    (∀ now : Int, ContextLabeler.dedupStep none now = (some now, true)) := by
  refine ⟨fun now h => ?_, fun e now h1 h2 => ?_, fun e now h => ?_,
    fun last now h => ?_, fun last now h => ?_, fun now => rfl⟩
  · simp only [Main.DEDUPLICATION_WINDOW] at h
    simp only [Main.dedupStep, Main.initialEntry, Main.DEDUPLICATION_WINDOW]
    rw [if_neg (by omega)]
  · simp only [Main.dedupStep, Main.DEDUPLICATION_WINDOW] at h2 ⊢
    rw [if_pos h2, if_pos (by omega)]
  · simp only [Main.DEDUPLICATION_WINDOW] at h
    simp only [Main.dedupStep, Main.DEDUPLICATION_WINDOW]
    rw [if_neg (by omega)]
  · simp only [ContextLabeler.dedupStep]
    rw [if_pos h]
  · simp only [ContextLabeler.dedupStep]
    rw [if_neg (by omega)]

/-- Witness for C1: concrete runs through all three main-variant cases and
a context_labeler suppression. -/
theorem dedup_sliding_window_witness :
    Main.dedupStep Main.initialEntry 1000 = (⟨1000, 1⟩, true) ∧
    Main.dedupStep ⟨1000, 1⟩ 1029 = (⟨1000, 2⟩, false) ∧
    Main.dedupStep ⟨1000, 2⟩ 1030 = (⟨1030, 1⟩, true) ∧
    ContextLabeler.dedupStep (some 1000) 1004 = (some 1000, false) ∧
    ContextLabeler.dedupStep (some 1000) 1005 = (some 1005, true) :=
  ⟨dedup_sliding_window.1 1000 (by decide),
   dedup_sliding_window.2.1 ⟨1000, 1⟩ 1029 (by decide) (by decide),
   dedup_sliding_window.2.2.1 ⟨1000, 2⟩ 1030 (by decide),
   dedup_sliding_window.2.2.2.1 1000 1004 (by decide),
   dedup_sliding_window.2.2.2.2.1 1000 1005 (by decide)⟩

/-- C4: `handle_rate_limit` arms the guard with the advertised reset time;
while `now` is before the reset time every guarded call short-circuits
(`HTTPException 429`) issuing no outbound effect and leaving the guard
armed; the first check at or after the reset time clears the guard (flag
false, reset time zero) and lets the call's effects through. -/
theorem rate_limit_guard (resetTime now : Int) (effs : List Main.Effect) :
    Main.handle_rate_limit resetTime = (true, resetTime) ∧
    (now < resetTime →
      Main.check_rate_limit true resetTime now
          = (Main.RateCheck.raise429, true, resetTime) ∧
      Main.guardedOp true resetTime now effs = ([], true, resetTime)) ∧
    (resetTime ≤ now →
      Main.check_rate_limit true resetTime now
          = (Main.RateCheck.proceed, false, 0) ∧
      Main.guardedOp true resetTime now effs = (effs, false, 0)) := by
  refine ⟨rfl, fun h => ?_, fun h => ?_⟩
  · have hc : Main.check_rate_limit true resetTime now
        = (Main.RateCheck.raise429, true, resetTime) := by
      simp only [Main.check_rate_limit, if_pos h, if_pos trivial]
    exact ⟨hc, by simp only [Main.guardedOp, hc]⟩
  · have hc : Main.check_rate_limit true resetTime now
        = (Main.RateCheck.proceed, false, 0) := by
      simp only [Main.check_rate_limit, if_pos trivial]
      rw [if_neg (by omega)]
    exact ⟨hc, by simp only [Main.guardedOp, hc]⟩

/-- Witness for C4: the spec's 60-second scenario — a 429 at time 0 with
reset 60: a call at 59 is short-circuited with no effect, a call at 61
proceeds and clears the guard. -/
theorem rate_limit_guard_witness :
    Main.handle_rate_limit 60 = (true, 60) ∧
    Main.guardedOp true 60 59 [Main.Effect.removeDue "t"] = ([], true, 60) ∧
    Main.guardedOp true 60 61 [Main.Effect.removeDue "t"]
      = ([Main.Effect.removeDue "t"], false, 0) :=
  ⟨(rate_limit_guard 60 59 []).1,
   ((rate_limit_guard 60 59 [Main.Effect.removeDue "t"]).2.1 (by decide)).2,
   ((rate_limit_guard 60 61 [Main.Effect.removeDue "t"]).2.2 (by decide)).2⟩

/-- C10: the context_labeler `process_task` touches nothing for a task
outside the hardcoded Inbox project or without a (truthy) section id: it
returns immediately with no effect issued. -/
theorem ctx_out_of_scope_no_effect (env : ContextLabeler.Env)
    (task : ContextLabeler.Task)
    (h : task.projectId ≠ ContextLabeler.INBOX_PROJECT_ID
        ∨ ContextLabeler.truthy task.sectionId = false) :
    ContextLabeler.process_task env task = [] := by
  have hg : (task.projectId != ContextLabeler.INBOX_PROJECT_ID
      || !ContextLabeler.truthy task.sectionId) = true := by
    rcases h with h | h
    · simp [h]
    · simp [h]
  simp only [ContextLabeler.process_task, hg, if_pos trivial]

/-- Witness for C10: a task in another project, and an Inbox task with no
section, both produce no effect. -/
theorem ctx_out_of_scope_no_effect_witness :
    ContextLabeler.process_task
      ⟨fun tid => ⟨tid, "999", some "s", "c", [], none, none⟩,
       fun _ => some "Work", fun _ => true, ⟨2024, 1, 1, 0, 0, 0⟩, 360⟩
      ⟨"t", "999", some "s", "c", [], none, none⟩ = [] ∧
    ContextLabeler.process_task
      ⟨fun tid => ⟨tid, "2236493795", none, "c", [], none, none⟩,
       fun _ => some "Work", fun _ => true, ⟨2024, 1, 1, 0, 0, 0⟩, 360⟩
      ⟨"t", "2236493795", none, "c", [], none, none⟩ = [] :=
  ⟨ctx_out_of_scope_no_effect _ _ (Or.inl (by decide)),
   ctx_out_of_scope_no_effect _ _ (Or.inr (by decide))⟩

/-- C2: evaluation at the failing input.  The main variant's
`add_label_to_task` is idempotent — with the label already present it
issues no write.  The context_labeler variant's `add_label_to_task` has no
membership check: on the same input it issues an `update_task` write whose
label list now holds the label twice, contradicting the spec (and the
repository's own `test_add_context_label_existing_label`, which asserts
`update_task` is not called in this situation). -/
theorem add_label_idempotence_at_failing_input :
    Main.add_label_to_task c2MainEnv "t2" "context/work" = ([], true) ∧
    ContextLabeler.add_label_to_task c2CtxEnv "t2" "context/work" =
      ([ContextLabeler.Effect.updateTask "t2"
        ⟨"t2", "2236493795", some "s", "c",
         ["context/work", "context/work"], none, none⟩], true) := by
  decide

/-- C5: relative `"+N unit"` due strings are computed by wall-clock
arithmetic in the configured timezone — timedelta addition over the civil
calendar for hours/days/weeks, `relativedelta` calendar-month arithmetic
(respecting month length) for months — and converted to UTC only in the
stored `date` field.  In particular `"+1 hour"` at 2024-01-01T23:30:00
local resolves to 2024-01-02T00:30:00 local (rolling into the next
calendar day) and is stored as the UTC instant 2024-01-02T06:30:00Z; and
month addition clamps to the target month's length (Jan 31 + 1 month is
Feb 29 in 2024 and Feb 28 in 2023, not a fixed 30-day block). -/
theorem relative_due_wall_clock :
    (∀ (now : Cal.DateTime) (n : Nat),
      ContextLabeler.computeDue now n "hour"
          = some (Cal.addSeconds now (3600 * n)) ∧
      ContextLabeler.computeDue now n "hours"
          = some (Cal.addSeconds now (3600 * n)) ∧
      ContextLabeler.computeDue now n "day"
          = some (Cal.addSeconds now (86400 * n)) ∧
      ContextLabeler.computeDue now n "days"
          = some (Cal.addSeconds now (86400 * n)) ∧
      ContextLabeler.computeDue now n "week"
          = some (Cal.addSeconds now (604800 * n)) ∧
      ContextLabeler.computeDue now n "weeks"
          = some (Cal.addSeconds now (604800 * n)) ∧
      ContextLabeler.computeDue now n "month"
          = some (Cal.addMonths now n) ∧
      ContextLabeler.computeDue now n "months"
          = some (Cal.addMonths now n)) ∧
    (∀ (env : ContextLabeler.Env) (taskId s lang : String) (n : Nat)
        (unit : String) (dueLocal : Cal.DateTime),
      Str.startsWith s "+" = true →
      ContextLabeler.parseRelative s = some (n, unit) →
      ContextLabeler.computeDue env.now n unit = some dueLocal →
      ContextLabeler.set_due_date env taskId s lang false =
        ([ContextLabeler.Effect.updateTask (env.task taskId).id
          { env.task taskId with
            due := some ⟨some (Cal.formatIso
                            (Cal.utcOfLocal dueLocal env.westMinutes)),
                         some "America/Chicago",
                         some (Cal.formatHuman dueLocal),
                         some lang⟩ }], true)) ∧
    ContextLabeler.set_due_date c5Env "t5" "+1 hour" "en" false =
      ([ContextLabeler.Effect.updateTask "t5"
        ⟨"t5", "2236493795", some "s", "c", [],
         some ⟨some "2024-01-02T06:30:00.000000Z", some "America/Chicago",
               some "2024-01-02 at 12:30 AM", some "en"⟩, none⟩], true) ∧
    Cal.addSeconds ⟨2024, 1, 1, 23, 30, 0⟩ 3600 = ⟨2024, 1, 2, 0, 30, 0⟩ ∧
    Cal.utcOfLocal ⟨2024, 1, 2, 0, 30, 0⟩ 360 = ⟨2024, 1, 2, 6, 30, 0⟩ ∧
    Cal.addMonths ⟨2024, 1, 31, 9, 0, 0⟩ 1 = ⟨2024, 2, 29, 9, 0, 0⟩ ∧
    Cal.addMonths ⟨2023, 1, 31, 9, 0, 0⟩ 1 = ⟨2023, 2, 28, 9, 0, 0⟩ ∧
    Cal.addMonths ⟨2024, 2, 29, 9, 0, 0⟩ 12 = ⟨2025, 2, 28, 9, 0, 0⟩ ∧
    Cal.addSeconds ⟨2024, 1, 31, 9, 0, 0⟩ (30 * 86400)
        = ⟨2024, 3, 1, 9, 0, 0⟩ := by
  refine ⟨fun now n => ⟨rfl, rfl, rfl, rfl, rfl, rfl, rfl, rfl⟩,
    fun env taskId s lang n unit dueLocal hs hp hc => ?_, by decide⟩
  simp only [ContextLabeler.set_due_date, hs, hp, hc, if_true]
  rfl

/-- Witness for C5: the general relative-due conjunct applied to
`"+2 days"` issued at 2024-02-28T12:00:00 local, crossing the leap day. -/
theorem relative_due_wall_clock_witness :
    ContextLabeler.set_due_date
      ⟨fun tid => ⟨tid, "2236493795", some "s", "c", [], none, none⟩,
       fun _ => none, fun _ => true, ⟨2024, 2, 28, 12, 0, 0⟩, 360⟩
      "t" "+2 days" "en" false =
      ([ContextLabeler.Effect.updateTask "t"
        ⟨"t", "2236493795", some "s", "c", [],
         some ⟨some "2024-03-01T18:00:00.000000Z", some "America/Chicago",
               some "2024-03-01 at 12:00 PM", some "en"⟩, none⟩], true) :=
  relative_due_wall_clock.2.1
    ⟨fun tid => ⟨tid, "2236493795", some "s", "c", [], none, none⟩,
     fun _ => none, fun _ => true, ⟨2024, 2, 28, 12, 0, 0⟩, 360⟩
    "t" "+2 days" "en" 2 "days" ⟨2024, 3, 1, 12, 0, 0⟩
    (by decide) (by decide) (by decide)

/-- When no label is mapped, the move loop falls through to the
no-matching-label report without issuing anything. -/
theorem moveLoop_noMatch (env : Main.Env) (taskId moveType : String)
    (ls : List String) (h : firstMappedLabel ls = none) :
    Main.moveLoop env taskId moveType ls = ([], Main.MoveOutcome.noMatch) := by
  induction ls with
  | nil => rfl
  | cons a rest ih =>
      cases hl : Main.LABEL_TO_PROJECT_MAPPING.lookup a with
      | none =>
          simp only [firstMappedLabel, hl] at h
          simp only [Main.moveLoop, hl]
          exact ih h
      | some p =>
          simp only [firstMappedLabel, hl] at h
          exact Option.noConfusion h

/-- When the first mapped label's move succeeds, the loop stops there:
its effects and outcome ignore every later label. -/
theorem moveLoop_first (env : Main.Env) (taskId moveType : String)
    (ls : List String) (l pid : String) (effs : List Main.Effect)
    (hm : firstMappedLabel ls = some (l, pid))
    (hv : Main.moveForType env taskId moveType pid = some (effs, true)) :
    Main.moveLoop env taskId moveType ls
      = (effs, Main.MoveOutcome.moved l pid) := by
  induction ls with
  | nil => exact Option.noConfusion hm
  | cons a rest ih =>
      cases hl : Main.LABEL_TO_PROJECT_MAPPING.lookup a with
      | none =>
          simp only [firstMappedLabel, hl] at hm
          simp only [Main.moveLoop, hl]
          exact ih hm
      | some p =>
          simp only [firstMappedLabel, hl, Option.some.injEq,
            Prod.mk.injEq] at hm
          obtain ⟨rfl, rfl⟩ := hm
          simp only [Main.moveLoop, hl, hv, if_true]

/-- C3: when a task's section maps to a `move/*` directive, the move
resolution scans the task's labels in their existing order: if no label is
in `LABEL_TO_PROJECT_MAPPING` the result is the no-matching-label no-op
with no effect issued; and if the first mapped label's move succeeds, the
task is moved according to that label alone and the loop stops — the
result is exactly that move's effects, ignoring all later labels. -/
theorem move_section_first_label_wins (env : Main.Env)
    (taskId moveType : String) :
    (firstMappedLabel (env.task taskId).labels = none →
      Main.process_move_section env taskId moveType
        = ([], Main.MoveOutcome.noMatch)) ∧
    (∀ (l pid : String) (effs : List Main.Effect),
      firstMappedLabel (env.task taskId).labels = some (l, pid) →
      Main.moveForType env taskId moveType pid = some (effs, true) →
      Main.process_move_section env taskId moveType
        = (effs, Main.MoveOutcome.moved l pid)) :=
  ⟨fun h => moveLoop_noMatch env taskId moveType _ h,
   fun l pid effs hm hv => moveLoop_first env taskId moveType _ l pid effs hm hv⟩

/-- Witness for C3: the spec's precedence scenario — labels
`["context/work", "context/home"]` under `move/inbox` resolve to the
work-mapped project (first label wins), and an unmapped label list is a
no-op. -/
theorem move_section_first_label_wins_witness :
    Main.process_move_section c3Env "t3" "move/inbox"
      = ([Main.Effect.itemMove "t3" (Main.MoveArg.toSection "sWI")],
         Main.MoveOutcome.moved "context/work" "2327425429") ∧
    Main.process_move_section c3EnvNoMatch "t3" "move/inbox"
      = ([], Main.MoveOutcome.noMatch) :=
  ⟨(move_section_first_label_wins c3Env "t3" "move/inbox").2
      "context/work" "2327425429"
      [Main.Effect.itemMove "t3" (Main.MoveArg.toSection "sWI")]
      (by decide) (by decide),
   (move_section_first_label_wins c3EnvNoMatch "t3" "move/inbox").1
      (by decide)⟩

/-- C7: for a task whose section name has no entry in
`SECTION_TO_LABEL_MAPPING`, is not `"Due Today"`, has no entry in
`DUE_TIME_SECTIONS`, and is not an `"Inbox *"` staging section, the main
variant's `process_task` issues no external mutation at all and reports a
skip. -/
theorem unknown_section_no_op (env : Main.Env) (taskId sectionId : String)
    (h1 : (env.sectionName sectionId).bind
        (fun n => Main.SECTION_TO_LABEL_MAPPING.lookup n) = none)
    (h2 : env.sectionName sectionId ≠ some "Due Today")
    (h3 : (env.sectionName sectionId).bind
        (fun n => Main.DUE_TIME_SECTIONS.lookup n) = none)
    (h4 : (env.sectionName sectionId).all
        (fun n => !(Str.startsWith n "Inbox *")) = true) :
    Main.process_task env taskId sectionId
      = ([], Main.TaskOutcome.skipped) := by
  have hb : (env.sectionName sectionId == some "Due Today") = false :=
    beq_eq_false_iff_ne.mpr h2
  simp only [Main.process_task, h1, h3, hb, Bool.false_and, Bool.false_eq_true,
    if_false]
  cases hn : env.sectionName sectionId with
  | none => rfl
  | some n =>
      rw [hn] at h4
      simp only [Option.all_some, Bool.not_eq_eq_eq_not, Bool.not_true] at h4
      simp only [Main.inboxOrSkip, h4, Bool.false_and, Bool.false_eq_true,
        if_false]

/-- Witness for C7 at a concrete unmapped section. -/
theorem unknown_section_no_op_witness :
    Main.process_task c7Env "t7" "s7" = ([], Main.TaskOutcome.skipped) :=
  unknown_section_no_op c7Env "t7" "s7" (by decide) (by decide) (by decide)
    (by decide)

/-- C9: an accepted event whose `section_id` is the empty string is
acknowledged with `"ok"` and schedules nothing, yet the dedup entry is
still written (the dedup block runs before the section check): the entry
becomes `(now, 1)`, so a later in-window event for the same task — even
one that does carry a section — is suppressed (count bumped to 2, nothing
scheduled). -/
theorem empty_section_records_dedup (st : Main.ServerState)
    (now now2 : Int) (ev ev2 : Main.WebhookEvent)
    (h1 : ev.eventName = "item:added" ∨ ev.eventName = "item:updated")
    (h2 : ev.sectionId = "")
    (h3 : Main.DEDUPLICATION_WINDOW
        ≤ now - (st.processedTasks ev.taskId).timestamp)
    (h4 : ev2.taskId = ev.taskId)
    (h5 : ev2.eventName = "item:added" ∨ ev2.eventName = "item:updated")
    (h6 : ev2.sectionId ≠ "")
    (h7 : now2 - now < Main.DEDUPLICATION_WINDOW) :
    (Main.todoist_webhook st now ev).response = Main.okResponse ∧
    (Main.todoist_webhook st now ev).scheduled = false ∧
    (Main.todoist_webhook st now ev).state.processedTasks ev.taskId
        = ⟨now, 1⟩ ∧
    (Main.todoist_webhook (Main.todoist_webhook st now ev).state now2
        ev2).response = Main.okResponse ∧
    (Main.todoist_webhook (Main.todoist_webhook st now ev).state now2
        ev2).scheduled = false ∧
    (Main.todoist_webhook (Main.todoist_webhook st now ev).state now2
        ev2).state.processedTasks ev.taskId = ⟨now, 2⟩ := by
  have he1 : (ev.eventName == "item:added"
      || ev.eventName == "item:updated") = true := by
    rcases h1 with h | h <;> simp [h]
  have hd1 : Main.dedupStep (st.processedTasks ev.taskId) now
      = (⟨now, 1⟩, true) := by
    simp only [Main.DEDUPLICATION_WINDOW] at h3
    simp only [Main.dedupStep, Main.DEDUPLICATION_WINDOW]
    rw [if_neg (by omega)]
  have hw1 : Main.todoist_webhook st now ev =
      ⟨{ st with processedTasks :=
          Main.updateEntry st.processedTasks ev.taskId ⟨now, 1⟩ },
        Main.okResponse, false⟩ := by
    simp [Main.todoist_webhook, he1, hd1, h2]
  have hp1 : (Main.todoist_webhook st now ev).state.processedTasks ev.taskId
      = ⟨now, 1⟩ := by
    rw [hw1]
    simp [Main.updateEntry]
  have he2 : (ev2.eventName == "item:added"
      || ev2.eventName == "item:updated") = true := by
    rcases h5 with h | h <;> simp [h]
  have hd2 : Main.dedupStep (⟨now, 1⟩ : Main.DedupEntry) now2
      = (⟨now, 2⟩, false) := by
    simp only [Main.DEDUPLICATION_WINDOW] at h7
    simp only [Main.dedupStep, Main.DEDUPLICATION_WINDOW]
    rw [if_pos (by omega)]
    norm_num
  have hentry : (Main.updateEntry st.processedTasks ev.taskId ⟨now, 1⟩)
      ev2.taskId = ⟨now, 1⟩ := by
    simp [Main.updateEntry, h4]
  have hw2 : Main.todoist_webhook
      { st with processedTasks :=
          Main.updateEntry st.processedTasks ev.taskId ⟨now, 1⟩ } now2 ev2
      = ⟨{ st with
             processedTasks := Main.updateEntry (Main.updateEntry st.processedTasks ev.taskId ⟨now, 1⟩) ev2.taskId ⟨now, 2⟩ },
          Main.okResponse, false⟩ := by
    simp [Main.todoist_webhook, he2, hentry, hd2]
  refine ⟨by rw [hw1], by rw [hw1], hp1, ?_, ?_, ?_⟩
  · simp only [hw1, hw2]
  · simp only [hw1, hw2]
  · simp only [hw1, hw2]
    simp [Main.updateEntry, h4]

/-- Witness for C9 at concrete arrival times 1000 and 1010. -/
theorem empty_section_records_dedup_witness :
    (Main.todoist_webhook c9St 1000 c9Ev1).response = Main.okResponse ∧
    (Main.todoist_webhook c9St 1000 c9Ev1).scheduled = false ∧
    (Main.todoist_webhook c9St 1000 c9Ev1).state.processedTasks
        c9Ev1.taskId = ⟨1000, 1⟩ ∧
    (Main.todoist_webhook (Main.todoist_webhook c9St 1000 c9Ev1).state 1010
        c9Ev2).response = Main.okResponse ∧
    (Main.todoist_webhook (Main.todoist_webhook c9St 1000 c9Ev1).state 1010
        c9Ev2).scheduled = false ∧
    (Main.todoist_webhook (Main.todoist_webhook c9St 1000 c9Ev1).state 1010
        c9Ev2).state.processedTasks c9Ev1.taskId = ⟨1000, 2⟩ :=
  empty_section_records_dedup c9St 1000 1010 c9Ev1 c9Ev2
    (Or.inl rfl) rfl (by decide) rfl (Or.inr rfl) (by decide) (by decide)

/-- Counterexample to C8 as stated: with the guard active and unexpired at
dispatch time, the endpoint does NOT surface HTTP 429 — the
`HTTPException(429)` raised by `check_rate_limit` is caught inside the
handler and converted to a plain `return "rate limited"`, which FastAPI
serves as HTTP 200. -/
theorem webhook_429_never_surfaced_counterexample :
    (Main.todoist_webhook c8St 50 c8Ev).response.body = "rate limited" ∧
    (Main.todoist_webhook c8St 50 c8Ev).response.status = 200 ∧
    ¬ (Main.todoist_webhook c8St 50 c8Ev).response.status = 429 := by
  decide

/-- C8 (amended): the endpoint answers HTTP 200 for every inbound event;
the body is `"ok"` except exactly when a dispatch is attempted (recognized
event name, dedup check passes, nonempty section id) while the rate-limit
guard is active and unexpired, in which case the body is the distinct
`"rate limited"` — still with status 200, never HTTP 429. -/
theorem webhook_response_characterization (st : Main.ServerState)
    (now : Int) (ev : Main.WebhookEvent) :
    (Main.todoist_webhook st now ev).response.status = 200 ∧
    ((Main.todoist_webhook st now ev).response = Main.okResponse ∨
     (Main.todoist_webhook st now ev).response
        = Main.rateLimitedResponse) ∧
    ((Main.todoist_webhook st now ev).response
        = Main.rateLimitedResponse ↔
      ((ev.eventName = "item:added" ∨ ev.eventName = "item:updated") ∧
       (Main.dedupStep (st.processedTasks ev.taskId) now).2 = true ∧
       ev.sectionId ≠ "" ∧ st.rateLimited = true ∧
       now < st.rateLimitResetTime)) := by
  have hok : Main.okResponse ≠ Main.rateLimitedResponse := by decide
  simp only [Main.todoist_webhook]
  split
  case isFalse hev =>
    refine ⟨rfl, Or.inl rfl, ?_⟩
    constructor
    · intro h
      exact absurd h hok
    · rintro ⟨h, -⟩
      exact absurd (by rcases h with h | h <;> simp [h]) hev
  case isTrue hev =>
    have hev' : ev.eventName = "item:added"
        ∨ ev.eventName = "item:updated" := by
      simpa using hev
    split
    case isTrue hskip =>
      simp only [Bool.not_eq_eq_eq_not, Bool.not_true] at hskip
      refine ⟨rfl, Or.inl rfl, ?_⟩
      constructor
      · intro h
        exact absurd h hok
      · rintro ⟨-, hproc, -⟩
        rw [hskip] at hproc
        exact (Bool.false_ne_true hproc).elim
    case isFalse hskip =>
      have hproc : (Main.dedupStep (st.processedTasks ev.taskId) now).2
          = true := by
        revert hskip
        cases (Main.dedupStep (st.processedTasks ev.taskId) now).2 <;> simp
      split
      case isFalse hsec =>
        simp only [Bool.not_eq_true, bne_eq_false_iff_eq] at hsec
        refine ⟨rfl, Or.inl rfl, ?_⟩
        constructor
        · intro h
          exact absurd h hok
        · rintro ⟨-, -, hne, -⟩
          exact absurd hsec hne
      case isTrue hsec =>
        simp only [bne_iff_ne] at hsec
        split
        case h_1 b rst hm =>
          refine ⟨rfl, Or.inr rfl, ?_⟩
          have hguard : st.rateLimited = true
              ∧ now < st.rateLimitResetTime := by
            revert hm
            simp only [Main.check_rate_limit]
            cases st.rateLimited
            · simp only [Bool.false_eq_true, if_false]
              intro hm
              exact absurd (congrArg Prod.fst hm) (by simp)
            · rw [if_pos rfl]
              split
              case isTrue hlt =>
                intro _
                exact ⟨by trivial, hlt⟩
              case isFalse hlt =>
                intro hm
                exact absurd (congrArg Prod.fst hm) (by simp)
          exact ⟨fun _ => ⟨hev', hproc, hsec, hguard.1, hguard.2⟩,
            fun _ => rfl⟩
        case h_2 b rst hm =>
          refine ⟨rfl, Or.inl rfl, ?_⟩
          constructor
          · intro h
            exact absurd h hok
          · rintro ⟨-, -, -, hrl, hlt⟩
            revert hm
            simp only [Main.check_rate_limit, hrl, if_pos rfl]
            rw [if_pos hlt]
            intro hm
            exact absurd (congrArg Prod.fst hm) (by simp)

/-- Every effect issued by `get_or_create_inbox_section` is the creation of
an `"Inbox *"` section. -/
theorem mem_get_or_create (env : Main.Env) (p : String) (e : Main.Effect) :
    e ∈ (Main.get_or_create_inbox_section env p).1 →
      e = Main.Effect.addSection "Inbox *" p := by
  simp only [Main.get_or_create_inbox_section]
  split
  · simp
  · simp

/-- Every effect issued by `move_task_to_project_and_section` is an
`item_move`. -/
theorem mem_move_project_section (env : Main.Env) (t p pfx : String)
    (e : Main.Effect) :
    e ∈ (Main.move_task_to_project_and_section env t p pfx).1 →
      ∃ tid a, e = Main.Effect.itemMove tid a := by
  simp only [Main.move_task_to_project_and_section]
  split
  · split
    · intro he
      simp only [List.mem_cons, List.not_mem_nil, or_false] at he
      rcases he with rfl | rfl
      · exact ⟨t, _, rfl⟩
      · exact ⟨t, _, rfl⟩
    · intro he
      simp only [List.mem_singleton] at he
      exact ⟨t, _, he⟩
  · intro he
    simp only [List.mem_singleton] at he
    exact ⟨t, _, he⟩

/-- Every effect issued by `move_task_to_project_inbox` is an `item_move`
or the creation of an `"Inbox *"` section. -/
theorem mem_move_inbox (env : Main.Env) (t p : String) (e : Main.Effect) :
    e ∈ (Main.move_task_to_project_inbox env t p).1 →
      (∃ tid a, e = Main.Effect.itemMove tid a)
        ∨ ∃ q, e = Main.Effect.addSection "Inbox *" q := by
  simp only [Main.move_task_to_project_inbox]
  split
  · intro he
    exact Or.inr ⟨p, mem_get_or_create env p e he⟩
  · intro he
    rw [List.mem_append] at he
    rcases he with he | he
    · exact Or.inr ⟨p, mem_get_or_create env p e he⟩
    · simp only [List.mem_singleton] at he
      exact Or.inl ⟨t, _, he⟩

/-- Every effect behind a `some` result of the `move_type` dispatch is an
`item_move` or an `"Inbox *"` section creation. -/
theorem mem_moveForType (env : Main.Env) (t mt p : String)
    (effs : List Main.Effect) (ok : Bool) (e : Main.Effect)
    (hm : Main.moveForType env t mt p = some (effs, ok)) (he : e ∈ effs) :
    (∃ tid a, e = Main.Effect.itemMove tid a)
      ∨ ∃ q, e = Main.Effect.addSection "Inbox *" q := by
  simp only [Main.moveForType] at hm
  split at hm
  · have h2 := Option.some.inj hm
    have he' : e ∈ (Main.move_task_to_project_and_section env t p
        "Immediate--").1 := by
      rw [h2]; exact he
    exact Or.inl (mem_move_project_section env t p "Immediate--" e he')
  · split at hm
    · have h2 := Option.some.inj hm
      have he' : e ∈ (Main.move_task_to_project_and_section env t p
          "Parallel=-").1 := by
        rw [h2]; exact he
      exact Or.inl (mem_move_project_section env t p "Parallel=-" e he')
    · split at hm
      · have h2 := Option.some.inj hm
        have he' : e ∈ (Main.move_task_to_project_inbox env t p).1 := by
          rw [h2]; exact he
        exact mem_move_inbox env t p e he'
      · exact Option.noConfusion hm

/-- Every effect issued by the move loop is an `item_move` or an
`"Inbox *"` section creation. -/
theorem mem_moveLoop (env : Main.Env) (t mt : String) (ls : List String)
    (e : Main.Effect) :
    e ∈ (Main.moveLoop env t mt ls).1 →
      (∃ tid a, e = Main.Effect.itemMove tid a)
        ∨ ∃ q, e = Main.Effect.addSection "Inbox *" q := by
  induction ls with
  | nil => intro he; simp [Main.moveLoop] at he
  | cons a rest ih =>
      intro he
      simp only [Main.moveLoop] at he
      split at he
      · exact ih he
      · split at he
        · simp at he
        · rename_i effs ok heq
          split at he
          · exact mem_moveForType env t mt _ effs ok e heq he
          · rw [List.mem_append] at he
            rcases he with he | he
            · exact mem_moveForType env t mt _ effs ok e heq he
            · exact ih he

/-- Every effect issued by `process_move_section` is an `item_move` or an
`"Inbox *"` section creation. -/
theorem mem_process_move_section (env : Main.Env) (t mt : String)
    (e : Main.Effect) :
    e ∈ (Main.process_move_section env t mt).1 →
      (∃ tid a, e = Main.Effect.itemMove tid a)
        ∨ ∃ q, e = Main.Effect.addSection "Inbox *" q := by
  simp only [Main.process_move_section]
  exact mem_moveLoop env t mt _ e

/-- An effect issued by the `"Inbox *"`/skip tail of the dispatch is a due
removal, possible only under an `"Inbox *"` section name. -/
theorem mem_inboxOrSkip (sname : Option String) (task : Main.TaskState)
    (taskId : String) (e : Main.Effect)
    (he : e ∈ (Main.inboxOrSkip sname task taskId).1) :
    e = Main.Effect.removeDue taskId ∧
      sname.all (fun n => Str.startsWith n "Inbox *") = true := by
  cases sname with
  | none => simp [Main.inboxOrSkip] at he
  | some n =>
      simp only [Main.inboxOrSkip] at he
      split at he
      case isTrue hcond =>
        simp only [List.mem_singleton] at he
        subst he
        simp only [Bool.and_eq_true] at hcond
        exact ⟨rfl, by simpa using hcond.1⟩
      case isFalse hcond => simp at he

/-- Shape of every effect `process_task` can issue: an `item_move`, an
`"Inbox *"` section creation, a due-date set on this task, a label write
that appends one label to this task's current labels, or a due removal
under an `"Inbox *"` section. -/
theorem process_task_effect_shapes (env : Main.Env)
    (taskId sectionId : String) (e : Main.Effect)
    (he : e ∈ (Main.process_task env taskId sectionId).1) :
    (∃ tid a, e = Main.Effect.itemMove tid a) ∨
    (∃ q, e = Main.Effect.addSection "Inbox *" q) ∨
    (∃ ds dl ad, e = Main.Effect.setDue taskId ds dl ad) ∨
    (∃ label, e = Main.Effect.updateLabels taskId
        ((env.task taskId).labels ++ [label])) ∨
    (e = Main.Effect.removeDue taskId ∧
      (env.sectionName sectionId).all
        (fun n => Str.startsWith n "Inbox *") = true) := by
  simp only [Main.process_task] at he
  split at he
  case h_1 label hlook =>
    split at he
    case isTrue hmv =>
      rcases mem_process_move_section env taskId label e he with h | h
      · exact Or.inl h
      · exact Or.inr (Or.inl h)
    case isFalse hmv =>
      split at he
      case isTrue hcont => simp at he
      case isFalse hcont =>
        simp only [Main.add_label_to_task] at he
        rw [if_neg hcont] at he
        simp only [List.mem_singleton] at he
        exact Or.inr (Or.inr (Or.inr (Or.inl ⟨label, he⟩)))
  case h_2 hlook =>
    split at he
    case isTrue hd =>
      simp only [List.mem_singleton] at he
      exact Or.inr (Or.inr (Or.inl ⟨"today", "en", false, he⟩))
    case isFalse hd =>
      split at he
      case h_1 tmpl htm =>
        split at he
        case isTrue hds =>
          simp only [List.mem_singleton] at he
          exact Or.inr (Or.inr (Or.inl ⟨tmpl.dueString, tmpl.dueLang, true,
            he⟩))
        case isFalse hds =>
          exact Or.inr (Or.inr (Or.inr (Or.inr
            (mem_inboxOrSkip _ _ taskId e he))))
      case h_2 htm =>
        exact Or.inr (Or.inr (Or.inr (Or.inr
          (mem_inboxOrSkip _ _ taskId e he))))

/-- Counterexample to C6 as stated: the code has no deferral rule.  A task
carrying `"later"` (with a due date) in a `"Work"` section is handled by
the section rule alone — its single effect is a label write that keeps
`"later"`; it is not moved, its due date is not cleared, and the `"later"`
label is not removed. -/
theorem deferral_rule_counterexample :
    Main.process_task c6Env "t6" "s6" =
      ([Main.Effect.updateLabels "t6" ["later", "context/work"]],
       Main.TaskOutcome.addedLabel "context/work") ∧
    (Main.process_task c6Env "t6" "s6").1.all
      (fun e => !(isMoveOrDueClear e)) = true := by
  decide

/-- C6 (amended): no rule is keyed on the `"later"` label.  For every task
carrying `"later"`, processing never strips it — any label write still
contains `"later"` (labels are only appended to) — the only section ever
created is an `"Inbox *"` staging section (never a `"Later"` section), and
a due date is removed only by the `"Inbox *"`-section rule, never on
account of the label. -/
theorem no_deferral_rule (env : Main.Env) (taskId sectionId : String)
    (h : (env.task taskId).labels.contains "later" = true) :
    (∀ tid ls, Main.Effect.updateLabels tid ls
        ∈ (Main.process_task env taskId sectionId).1 →
      ls.contains "later" = true) ∧
    (∀ nm pid, Main.Effect.addSection nm pid
        ∈ (Main.process_task env taskId sectionId).1 → nm = "Inbox *") ∧
    (∀ tid, Main.Effect.removeDue tid
        ∈ (Main.process_task env taskId sectionId).1 →
      (env.sectionName sectionId).all
        (fun n => Str.startsWith n "Inbox *") = true) := by
  refine ⟨fun tid ls he => ?_, fun nm pid he => ?_, fun tid he => ?_⟩
  · rcases process_task_effect_shapes env taskId sectionId _ he with
      ⟨t, a, hx⟩ | ⟨q, hx⟩ | ⟨ds, dl, ad, hx⟩ | ⟨label, hx⟩ | ⟨hx, -⟩
    · exact absurd hx (by simp)
    · exact absurd hx (by simp)
    · exact absurd hx (by simp)
    · obtain ⟨-, rfl⟩ := Main.Effect.updateLabels.inj hx
      have hmem : "later" ∈ (env.task taskId).labels := by simpa using h
      simpa using Or.inl hmem
    · exact absurd hx (by simp)
  · rcases process_task_effect_shapes env taskId sectionId _ he with
      ⟨t, a, hx⟩ | ⟨q, hx⟩ | ⟨ds, dl, ad, hx⟩ | ⟨label, hx⟩ | ⟨hx, -⟩
    · exact absurd hx (by simp)
    · exact (Main.Effect.addSection.inj hx).1
    · exact absurd hx (by simp)
    · exact absurd hx (by simp)
    · exact absurd hx (by simp)
  · rcases process_task_effect_shapes env taskId sectionId _ he with
      ⟨t, a, hx⟩ | ⟨q, hx⟩ | ⟨ds, dl, ad, hx⟩ | ⟨label, hx⟩ | ⟨hx, hs⟩
    · exact absurd hx (by simp)
    · exact absurd hx (by simp)
    · exact absurd hx (by simp)
    · exact absurd hx (by simp)
    · exact hs

/-- Witness for C6's amended theorem: with task `"t6"` of `c6Env` (labels
`["later"]`) in its `"Work"` section, the one label write issued still
contains `"later"`. -/
theorem no_deferral_rule_witness :
    (["later", "context/work"] : List String).contains "later" = true :=
  (no_deferral_rule c6Env "t6" "s6" (by decide)).1 "t6"
    ["later", "context/work"] (by decide)
